import Mathlib

/-!
Verification of the batched key-lookup mechanism and the GraphQL resolvers of
the `graphql-full-course` repository, as a shallow embedding in Lean 4.

The user records and the resolver functions are translated from
`src/server/FakeData.js` and `src/server/schema/resolvers.js`.  The batching
mechanism itself (the DataLoader instance created at line 69 of resolvers.js)
comes from the external `dataloader` package whose sources are not part of the
repository, so its behaviour is modelled from the design document (spec §4.1).
-/

/-- A user/admin record, after `src/server/FakeData.js`.  Plain users carry
`age`, `nationality` and possibly a `friends` id list; admin records instead
carry a `role`.  Optional JS properties become `Option` fields. -/
structure User where
  id : Int
  name : String
  username : String
  age : Option Int
  nationality : Option String
  friends : Option (List Int)
  role : Option String
deriving DecidableEq

def john : User := ⟨1, "John", "john", some 20, some "CANADA", some [2, 5], none⟩

def pedro : User := ⟨2, "Pedro", "PedroTech", some 20, some "BRAZIL", none, none⟩

def sarah : User := ⟨3, "Sarah", "cameron", some 25, some "INDIA", some [2], none⟩

def rafe : User := ⟨4, "Rafe", "rafe123", some 60, some "GERMANY", some [3, 5], none⟩

def kelly : User := ⟨5, "Kelly", "kelly2019", some 5, some "CHILE", none, none⟩

def andrew : User := ⟨6, "Andrew", "andrew001", none, none, none, some "SUPERADMIN"⟩

def chris : User := ⟨7, "Chris", "chris007", none, none, none, some "ADMIN"⟩

def jaro : User := ⟨8, "Jaro", "huskylover64", none, none, none, some "ADMIN"⟩

/-- The in-memory database, after `UserList` of `src/server/FakeData.js`. -/
def UserList : List User := [john, pedro, sarah, rafe, kelly, andrew, chris, jaro]

/-- The bulk-fetch function of `src/server/schema/resolvers.js` lines 65-67,
generalized over the backing collection `db`:
`UserList.filter((user) => ids.includes(user.id))`. -/
def fetchUsersByIds (db : List User) (ids : List Int) : List User :=
  db.filter (fun u => ids.contains u.id)

/-- `getUsersByIds` exactly as in `src/server/schema/resolvers.js` lines 65-67:
the generalized fetch applied to the module-level `UserList`. -/
def getUsersByIds (ids : List Int) : List User :=
  fetchUsersByIds UserList ids

/-- Modelled from the spec: §4.1 step 3 deduplicates the keys of a batch before
the single bulk fetch (the `dataloader` package backing `usersByIdLoader` is
not part of the repository sources).  The order of the deduplicated list is
unspecified by the spec; only its membership matters downstream. -/
def dedupKeys (ks : List Int) : List Int :=
  ks.dedup

/-- Modelled from the spec: §4.1 step 4 — a key's handle is resolved with the
matching entity if the bulk-fetch result contains one whose identity equals
the key, else with the missing indicator (`none`). -/
def resolveKey (fetched : List User) (k : Int) : Option User :=
  fetched.find? (fun u => u.id == k)

/-- Modelled from the spec: the single bulk fetch a flush performs for a batch
whose registered keys are `keys` — dedupe, then fetch from `db`. -/
def flushFetch (db : List User) (keys : List Int) : List User :=
  fetchUsersByIds db (dedupKeys keys)

/-- Modelled from the spec: `requestOne(key)` (DataLoader `.load`) in a cycle
where `key` is the only registered key, over the bulk fetch `fetchUsersByIds db`. -/
def requestOne (db : List User) (k : Int) : Option User :=
  resolveKey (flushFetch db [k]) k

/-- Modelled from the spec: `requestMany(keys)` (DataLoader `.loadMany`) in a
cycle where `keys` are the registered keys, over the bulk fetch
`fetchUsersByIds db`: one deduplicated fetch, then every originally requested
key (duplicates included) is resolved independently in input order. -/
def requestMany (db : List User) (keys : List Int) : List (Option User) :=
  keys.map (resolveKey (flushFetch db keys))

/-- Modelled from the spec: the outcome of a whole flush cycle for a list of
calls (each call is the key list of one `requestOne`/`requestMany`), over an
arbitrary, possibly failing bulk-fetch function.  The bulk fetch runs once on
the deduplicated union of all registered keys; on failure every call's handle
receives the same failure, on success each call's keys are resolved in order. -/
def callOutcomes (bulkFetch : List Int → Except String (List User))
    (calls : List (List Int)) : List (Except String (List (Option User))) :=
  match bulkFetch (dedupKeys calls.flatten) with
  | Except.error e => calls.map (fun _ => Except.error e)
  | Except.ok fetched => calls.map (fun ks => Except.ok (ks.map (resolveKey fetched)))

/-- Modelled from the spec: the observable events of the loader — registering a
key into the open batch, and flushing the open batch. -/
inductive LoaderEvent where
  | load : Int → LoaderEvent
  | flush : LoaderEvent
deriving DecidableEq

/-- Modelled from the spec: the loader's state — the keys of the currently
open batch in registration order, and the log of bulk-fetch invocations (one
entry per invocation: the deduplicated key list it was given). -/
structure LoaderState where
  pending : List Int
  fetchLog : List (List Int)
deriving DecidableEq

def initLoader : LoaderState := ⟨[], []⟩

/-- Modelled from the spec: §4.1 steps 2, 3 and 6 — a `load` appends its key to
the open batch; a `flush` dispatches the open batch exactly once (one bulk-fetch
invocation on the deduplicated keys), discards it, and opens a fresh empty
batch, so keys registered during or after the flush land in the next batch. -/
def loaderStep (s : LoaderState) : LoaderEvent → LoaderState
  | LoaderEvent.load k => ⟨s.pending ++ [k], s.fetchLog⟩
  | LoaderEvent.flush => ⟨[], s.fetchLog ++ [dedupKeys s.pending]⟩

def loaderRun (s : LoaderState) (evs : List LoaderEvent) : LoaderState :=
  evs.foldl loaderStep s

/-- Modelled from the spec: one full cycle — the keys of every call made in the
cycle are registered (a `requestMany(ks)` registers each key of `ks` in order),
then the scheduled flush runs. -/
def cycleEvents (calls : List (List Int)) : List LoaderEvent :=
  calls.flatten.map LoaderEvent.load ++ [LoaderEvent.flush]

/-- The data carried by the `GraphQLError` thrown in the `user` resolver
(`src/server/schema/resolvers.js` lines 92-102): the message and the
`extensions.code` / `extensions.userId` properties. -/
structure GraphQLErrorInfo where
  message : String
  code : String
  userId : Int
deriving DecidableEq

/-- The `Query.user` resolver (`src/server/schema/resolvers.js` lines 84-106),
generalized over the backing list: `_.find(UserList, { id: Number(id) })`
returns the first matching record; when none matches a `GraphQLError` with
`extensions.code = "USER_NOT_EXISTS"` and `extensions.userId = id` is thrown.
The resolver only reads the list, so the embedding is a pure function of it. -/
def Query_user (db : List User) (id : Int) : Except GraphQLErrorInfo User :=
  match db.find? (fun u => u.id == id) with
  | some u => Except.ok u
  | none => Except.error
      ⟨"User with ID " ++ toString id ++ " not exists in the FakeData.js database",
       "USER_NOT_EXISTS", id⟩

/-- The in-place `user.id = lastId + 1` assignment of `Mutation.createUser`:
the input record with its id replaced. -/
def withId (u : User) (i : Int) : User :=
  ⟨i, u.name, u.username, u.age, u.nationality, u.friends, u.role⟩

/-- The `Mutation.createUser` resolver (`src/server/schema/resolvers.js`
lines 210-216): it reads `UserList[UserList.length - 1].id` — a TypeError on an
empty list, modelled as `none` — then sets the input's id to that last id plus
one, pushes it, and returns it.  The result pairs the returned user with the
new list state. -/
def Mutation_createUser (db : List User) (input : User) : Option (User × List User) :=
  match db.getLast? with
  | none => none
  | some last => some (withId input (last.id + 1), db ++ [withId input (last.id + 1)])

/-- The `Mutation.deleteUser` resolver (`src/server/schema/resolvers.js`
lines 229-233): `_.remove(UserList, (user) => user.id === Number(id))` removes
every matching record in place; the embedding returns the new list state. -/
def Mutation_deleteUser (db : List User) (id : Int) : List User :=
  db.filter (fun u => !(u.id == id))

/-! ### Helper lemmas -/

theorem resolveKey_fetch (db : List User) (ks : List Int) (k : Int) (hk : k ∈ ks) :
    resolveKey (fetchUsersByIds db ks) k = db.find? (fun u => u.id == k) := by
  induction db with
  | nil => rfl
  | cons u t ih =>
    rw [resolveKey, fetchUsersByIds] at ih ⊢
    rw [List.filter_cons]
    by_cases hm : ks.contains u.id
    · rw [if_pos hm]
      by_cases h : u.id = k
      · rw [List.find?_cons_of_pos _ (by simp [h]), List.find?_cons_of_pos _ (by simp [h])]
      · rw [List.find?_cons_of_neg _ (by simp [h]), List.find?_cons_of_neg _ (by simp [h]), ih]
    · rw [if_neg hm]
      have h : u.id ≠ k := by
        intro e
        exact hm (by rw [e]; exact List.elem_iff.mpr hk)
      rw [List.find?_cons_of_neg _ (by simp [h]), ih]

theorem resolveKey_absent (db : List User) (ds : List Int) (k : Int)
    (h : ∀ u ∈ db, u.id ≠ k) :
    resolveKey (fetchUsersByIds db ds) k = none := by
  apply List.find?_eq_none.mpr
  intro u hu
  simp [h u (List.mem_of_mem_filter hu)]

theorem resolveKey_flushFetch (db : List User) (keys : List Int) (k : Int)
    (hk : k ∈ keys) :
    resolveKey (flushFetch db keys) k = db.find? (fun u => u.id == k) :=
  resolveKey_fetch db (dedupKeys keys) k (by simpa [dedupKeys] using hk)

theorem requestOne_eq_find (db : List User) (k : Int) :
    requestOne db k = db.find? (fun u => u.id == k) :=
  resolveKey_flushFetch db [k] k (by simp)

theorem loaderRun_append (s : LoaderState) (a b : List LoaderEvent) :
    loaderRun s (a ++ b) = loaderRun (loaderRun s a) b :=
  List.foldl_append loaderStep s a b

theorem loaderRun_loads (ks : List Int) (s : LoaderState) :
    loaderRun s (ks.map LoaderEvent.load) = ⟨s.pending ++ ks, s.fetchLog⟩ := by
  induction ks generalizing s with
  | nil => simp [loaderRun]
  | cons k t ih =>
    have h := ih ⟨s.pending ++ [k], s.fetchLog⟩
    simp only [List.map_cons, loaderRun, List.foldl_cons] at h ⊢
    rw [show loaderStep s (LoaderEvent.load k) = ⟨s.pending ++ [k], s.fetchLog⟩ from rfl, h]
    simp

theorem loaderRun_cycle (s : LoaderState) (calls : List (List Int)) :
    loaderRun s (cycleEvents calls)
      = ⟨[], s.fetchLog ++ [dedupKeys (s.pending ++ calls.flatten)]⟩ := by
  rw [cycleEvents, loaderRun_append, loaderRun_loads]
  rfl

theorem loaderRun_fetchLog_extend (evs : List LoaderEvent) (s : LoaderState) :
    ∃ t, (loaderRun s evs).fetchLog = s.fetchLog ++ t := by
  induction evs generalizing s with
  | nil => exact ⟨[], by simp [loaderRun]⟩
  | cons e t ih =>
    obtain ⟨t2, ht⟩ := ih (loaderStep s e)
    have hrun : loaderRun s (e :: t) = loaderRun (loaderStep s e) t := rfl
    cases e with
    | load k => exact ⟨t2, by rw [hrun, ht]; rfl⟩
    | flush =>
        refine ⟨dedupKeys s.pending :: t2, ?_⟩
        rw [hrun, ht]
        simp [loaderStep]

theorem find?_first {α : Type} (p : α → Bool) :
    ∀ (l : List α) (u : α), l.find? p = some u →
      p u = true ∧ ∃ l1 l2, l = l1 ++ u :: l2 ∧ ∀ v ∈ l1, p v = false
  | [], u, h => by simp [List.find?] at h
  | a :: t, u, h => by
    by_cases hp : p a
    · rw [List.find?_cons_of_pos _ hp] at h
      cases h
      exact ⟨hp, [], t, rfl, by simp⟩
    · rw [List.find?_cons_of_neg _ (by simpa using hp)] at h
      obtain ⟨hu, l1, l2, ht, hl1⟩ := find?_first p t u h
      refine ⟨hu, a :: l1, l2, by rw [ht]; rfl, ?_⟩
      intro v hv
      rcases List.mem_cons.mp hv with hv | hv
      · subst hv; simpa using hp
      · exact hl1 v hv

/-- A backing collection used to exhibit an id collision in `Mutation_createUser`:
three records with pairwise distinct ids 5, 9 and 4. -/
def userX9 : User := ⟨9, "X", "x9", none, none, none, none⟩

def dbCollision : List User := [kelly, userX9, rafe]

/-! ### Claims -/

/-- Claim C1: two lookup cycles separated by a completed flush each trigger
their own bulk-fetch invocation — after any two cycles the invocation log holds
one entry per cycle, computed from that cycle's keys alone, even when the
cycles request identical keys (concretely, two cycles each requesting key 1
produce two `getUsersByIds` invocations); no result is reused across cycles. -/
theorem loader_refetches_across_cycles :
    (∀ calls1 calls2 : List (List Int),
      (loaderRun initLoader (cycleEvents calls1 ++ cycleEvents calls2)).fetchLog
        = [dedupKeys calls1.flatten, dedupKeys calls2.flatten])
    ∧ (loaderRun initLoader (cycleEvents [[1]] ++ cycleEvents [[1]])).fetchLog
        = [[1], [1]] := by
  constructor
  · intro c1 c2
    rw [loaderRun_append, loaderRun_cycle, loaderRun_cycle]
    rfl
  · decide

/-- Claim C2: with a backing collection holding entities exactly for keys 1
and 2, `requestMany([1, 3, 2, 1])` over the bulk fetch resolves to
`[E1, missing, E2, E1]`, where the missing indicator is `none`. -/
theorem requestMany_concrete_fanout :
    ([john, pedro].map (fun u => u.id) = [1, 2])
    ∧ requestMany [john, pedro] [1, 3, 2, 1] = [some john, none, some pedro, some john] := by
  exact ⟨by decide, by decide⟩

/-- Claim C3: for every key sequence, including ones with duplicates,
`requestMany` resolves to a sequence of the same length whose i-th element is
the result for the i-th key (what a standalone `requestOne` of that key
returns), each duplicate occurrence receiving its own result. -/
theorem requestMany_preserves_length_and_order (db : List User) (keys : List Int) :
    (requestMany db keys).length = keys.length
    ∧ ∀ (i : Nat) (k : Int), keys[i]? = some k →
        (requestMany db keys)[i]? = some (requestOne db k) := by
  constructor
  · simp [requestMany]
  · intro i k hk
    have hmem : k ∈ keys := List.getElem?_mem hk
    rw [requestMany, List.getElem?_map, hk, Option.map_some']
    rw [resolveKey_flushFetch db keys k hmem, requestOne_eq_find]

/-- Witness for C3 at a duplicate-carrying input. -/
theorem requestMany_preserves_length_and_order_witness :
    (requestMany UserList [2, 5, 2]).length = 3
    ∧ (requestMany UserList [2, 5, 2])[0]? = some (requestOne UserList 2) := by
  have h := requestMany_preserves_length_and_order UserList [2, 5, 2]
  exact ⟨h.1.trans rfl, h.2 0 2 rfl⟩

/-- Claim C4: a key absent from the backing collection resolves to the explicit
not-found value `none`, and a lookup cycle over the (total) bulk fetch never
rejects: every call's outcome is an `Except.ok`. -/
theorem missing_key_is_not_an_error (db : List User) (calls : List (List Int))
    (keys : List Int) (i : Nat) (k : Int) :
    (∀ r ∈ callOutcomes (fun ks => Except.ok (fetchUsersByIds db ks)) calls,
      ∃ rs, r = Except.ok rs)
    ∧ (keys[i]? = some k → (∀ u ∈ db, u.id ≠ k) →
        (requestMany db keys)[i]? = some none) := by
  constructor
  · intro r hr
    rw [callOutcomes] at hr
    simp only [List.mem_map] at hr
    obtain ⟨ks, _, hks⟩ := hr
    exact ⟨ks.map (resolveKey (fetchUsersByIds db (dedupKeys calls.flatten))), hks.symm⟩
  · intro hk habs
    rw [requestMany, List.getElem?_map, hk, Option.map_some', flushFetch]
    rw [resolveKey_absent db (dedupKeys keys) k habs]

/-- Witness for C4: key 3 is absent from a collection holding ids 1 and 2. -/
theorem missing_key_is_not_an_error_witness :
    (requestMany [john, pedro] [1, 3])[1]? = some none :=
  (missing_key_is_not_an_error [john, pedro] [] [1, 3] 1 3).2 rfl (by decide)

/-- Claim C5: a flush cycle starting from an empty batch performs exactly one
bulk-fetch invocation — the log grows by the single entry holding the
deduplicated list of all keys registered in that cycle — however many calls
were made and however many duplicates they queued. -/
theorem flush_invokes_bulk_fetch_once (s : LoaderState) (calls : List (List Int))
    (h : s.pending = []) :
    loaderRun s (cycleEvents calls) = ⟨[], s.fetchLog ++ [dedupKeys calls.flatten]⟩ := by
  rw [loaderRun_cycle, h]
  rfl

/-- Witness for C5: three calls queueing keys 1,2 / 2 / 1 yield one invocation
on the deduplicated keys. -/
theorem flush_invokes_bulk_fetch_once_witness :
    loaderRun initLoader (cycleEvents [[1, 2], [2], [1]]) = ⟨[], [[2, 1]]⟩ :=
  (flush_invokes_bulk_fetch_once initLoader [[1, 2], [2], [1]] rfl).trans (by decide)

/-- Claim C6: when the bulk fetch of a cycle fails, every call's handle in that
batch resolves to that same failure — none resolves to an entity or a
not-found value — and the flush still logs exactly one invocation, so the
failure is terminal for the cycle (no retry). -/
theorem bulk_fetch_failure_propagates (bf : List Int → Except String (List User))
    (calls : List (List Int)) (e : String)
    (h : bf (dedupKeys calls.flatten) = Except.error e) :
    callOutcomes bf calls = calls.map (fun _ => Except.error e)
    ∧ (∀ r ∈ callOutcomes bf calls, r = Except.error e)
    ∧ (∀ s : LoaderState, (loaderStep s LoaderEvent.flush).fetchLog
        = s.fetchLog ++ [dedupKeys s.pending]) := by
  have h1 : callOutcomes bf calls = calls.map (fun _ => Except.error e) := by
    rw [callOutcomes, h]
  refine ⟨h1, ?_, fun s => rfl⟩
  intro r hr
  rw [h1] at hr
  simp only [List.mem_map] at hr
  obtain ⟨_, _, hre⟩ := hr
  exact hre.symm

/-- Witness for C6: a failing bulk fetch fails both calls of the cycle alike. -/
theorem bulk_fetch_failure_propagates_witness :
    callOutcomes (fun _ => Except.error "boom") [[1], [2, 3]]
      = [Except.error "boom", Except.error "boom"] :=
  ((bulk_fetch_failure_propagates (fun _ => Except.error "boom") [[1], [2, 3]]
      "boom" rfl).1).trans rfl

/-- Claim C7: loader invariants — a `load` appends its key to the open batch and
never touches the invocation log; a `flush` dispatches the open batch exactly
once (one log entry), discards it and opens a fresh empty batch; a key loaded
right after a flush lands in the fresh batch, leaving the dispatched batch's
log entry untouched; and no run of events ever alters or removes an already
logged dispatch (the log only ever extends). -/
theorem batch_dispatch_invariants (s : LoaderState) (k : Int) :
    (loaderStep s (LoaderEvent.load k)).pending = s.pending ++ [k]
    ∧ (loaderStep s (LoaderEvent.load k)).fetchLog = s.fetchLog
    ∧ (loaderStep s LoaderEvent.flush).pending = []
    ∧ (loaderStep s LoaderEvent.flush).fetchLog = s.fetchLog ++ [dedupKeys s.pending]
    ∧ (loaderStep (loaderStep s LoaderEvent.flush) (LoaderEvent.load k)).pending = [k]
    ∧ (loaderStep (loaderStep s LoaderEvent.flush) (LoaderEvent.load k)).fetchLog
        = s.fetchLog ++ [dedupKeys s.pending]
    ∧ ∀ evs, ∃ t, (loaderRun s evs).fetchLog = s.fetchLog ++ t :=
  ⟨rfl, rfl, rfl, rfl, by simp [loaderStep], rfl,
    fun evs => loaderRun_fetchLog_extend evs s⟩

/-- Claim C8: `getUsersByIds` returns the users of `UserList` whose id occurs
in the requested list, as a subsequence of `UserList` (so in `UserList` order,
not request order — requesting `[2, 1]` still yields John before Pedro), with
no placeholder for missing or duplicate ids (requesting `[1, 1, 99]` yields
just John, shorter than the request). -/
theorem getUsersByIds_filters_userlist (ids : List Int) :
    (getUsersByIds ids).Sublist UserList
    ∧ (∀ u, u ∈ getUsersByIds ids ↔ u ∈ UserList ∧ ids.contains u.id)
    ∧ getUsersByIds [2, 1] = [john, pedro]
    ∧ getUsersByIds [1, 1, 99] = [john] := by
  refine ⟨?_, fun u => ?_, by decide, by decide⟩
  · rw [getUsersByIds, fetchUsersByIds]
    exact List.filter_sublist UserList
  · rw [getUsersByIds, fetchUsersByIds]
    exact List.mem_filter

/-- Witness for C8 at a concrete id list. -/
theorem getUsersByIds_filters_userlist_witness :
    (getUsersByIds [5, 2]).Sublist UserList ∧ (pedro ∈ getUsersByIds [5, 2]) := by
  have h := getUsersByIds_filters_userlist [5, 2]
  exact ⟨h.1, (h.2.1 pedro).mpr (by decide)⟩

/-- Claim C9: the `user` query resolver fails with a `GraphQLError` carrying
`extensions.code = "USER_NOT_EXISTS"` and `extensions.userId` equal to the
given id exactly when no record of `UserList` has that id; otherwise it
returns the first record of `UserList` with that id, unchanged — the returned
record is literally an element of the list, which the resolver never writes
(the embedding is a pure function of `UserList`). -/
theorem user_query_not_exists_error (id : Int) :
    ((∀ u ∈ UserList, u.id ≠ id) →
      Query_user UserList id = Except.error
        ⟨"User with ID " ++ toString id ++ " not exists in the FakeData.js database",
         "USER_NOT_EXISTS", id⟩)
    ∧ (∀ e, Query_user UserList id = Except.error e →
        e.code = "USER_NOT_EXISTS" ∧ e.userId = id ∧ ∀ u ∈ UserList, u.id ≠ id)
    ∧ (∀ u, Query_user UserList id = Except.ok u →
        u.id = id ∧ ∃ l1 l2, UserList = l1 ++ u :: l2 ∧ ∀ v ∈ l1, v.id ≠ id) := by
  refine ⟨?_, ?_, ?_⟩
  · intro habs
    have hnone : UserList.find? (fun u => u.id == id) = none := by
      apply List.find?_eq_none.mpr
      intro u hu
      simp [habs u hu]
    rw [Query_user, hnone]
  · intro e he
    rw [Query_user] at he
    split at he
    · cases he
    · rename_i hf
      cases he
      refine ⟨rfl, rfl, ?_⟩
      intro u hu
      simpa using List.find?_eq_none.mp hf u hu
  · intro u hu
    rw [Query_user] at hu
    split at hu
    · rename_i v hf
      cases hu
      obtain ⟨hp, l1, l2, hl, hns⟩ := find?_first _ UserList u hf
      refine ⟨by simpa using hp, l1, l2, hl, ?_⟩
      intro v hv
      simpa using hns v hv
    · cases hu

/-- Witness for C9: id 99 matches no record and fails with the custom error;
id 2 matches Pedro, the first record with that id. -/
theorem user_query_not_exists_error_witness :
    (Query_user UserList 99 = Except.error
      ⟨"User with ID " ++ toString (99 : Int) ++ " not exists in the FakeData.js database",
       "USER_NOT_EXISTS", 99⟩)
    ∧ pedro.id = 2 ∧ ∃ l1 l2, UserList = l1 ++ pedro :: l2 ∧ ∀ v ∈ l1, v.id ≠ 2 := by
  refine ⟨(user_query_not_exists_error 99).1 (by decide), ?_⟩
  exact (user_query_not_exists_error 2).2.2 pedro rfl

/-- Claim C10: `createUser` requires a non-empty list — on an empty list the
read of the last element's id fails (`none`) — and otherwise appends the input
with id one more than the last element's id and returns that appended record;
the new id is not guaranteed distinct from existing ids: deleting the interior
record of `dbCollision` (distinct ids 5, 9, 4) and then creating yields id 5,
colliding with the id of the remaining first record. -/
theorem createUser_last_id_plus_one :
    (∀ input : User, Mutation_createUser [] input = none)
    ∧ (∀ (db : List User) (input last : User), db.getLast? = some last →
        Mutation_createUser db input
          = some (withId input (last.id + 1), db ++ [withId input (last.id + 1)]))
    ∧ List.Pairwise (fun u v : User => u.id ≠ v.id) dbCollision
    ∧ Mutation_deleteUser dbCollision 9 = [kelly, rafe]
    ∧ (∃ u rest, Mutation_createUser (Mutation_deleteUser dbCollision 9) userX9
        = some (u, rest)
        ∧ u.id = 5 ∧ ∃ v ∈ Mutation_deleteUser dbCollision 9, v.id = u.id) := by
  refine ⟨fun input => rfl, ?_, by decide, by decide, ?_⟩
  · intro db input last h
    rw [Mutation_createUser, h]
  · exact ⟨withId userX9 5, [kelly, rafe, withId userX9 5], by decide, rfl, kelly,
      by decide, rfl⟩

/-- Witness for C10: creating a user when John (id 1) is the last record
appends it with id 2 and returns it. -/
theorem createUser_last_id_plus_one_witness :
    Mutation_createUser [john] pedro
      = some (withId pedro (john.id + 1), [john, withId pedro (john.id + 1)]) :=
  createUser_last_id_plus_one.2.1 [john] pedro john rfl
